import Mathlib

/-!
Verification of the task-store core of the dual-backend task manager
(SQLite relational backend, Notion remote API backend, and the
Notion→SQLite sync operation).

The embedding is shallow: each Python method body's success path is
translated to a pure Lean function over an explicit store state, and the
`try/except` wrapper of every store operation is reflected by a `raises`
flag that selects the `except`-branch result (the backend engine or
remote API raising is external nondeterminism).
-/

namespace TaskApp

/-- The closed status enumeration used throughout the UI
(`task_manager_helper.py`: `["Not started", "In progress", "Done"]`). -/
def statusOptions : List String := ["Not started", "In progress", "Done"]

/-- The uniform task record shape `{id, name, status}` returned by
`list_tasks` of both backends. -/
structure Task where
  id : String
  name : String
  status : String
deriving Repr, DecidableEq

/-! ## Interface capability set (`task_manager_interface.py`) -/

/-- One abstract operation of `TaskManagerInterface`. -/
inductive StoreOp
  | list
  | add
  | delete
  | restore
  | update_status
  | update_name
  | clear_all
  | clear_by_status
deriving Repr, DecidableEq

/-- The methods declared `@abstractmethod` by `TaskManagerInterface`
(task_manager_interface.py, lines 22–124). -/
def interfaceAbstractOps : List StoreOp :=
  [.list, .add, .delete, .restore, .update_status, .update_name,
   .clear_all, .clear_by_status]

/-- The interface methods that `SqlTaskManager` (sql_manager.py) overrides
with a concrete definition. -/
def sqlDefinedOps : List StoreOp :=
  [.list, .add, .delete, .restore, .update_status, .update_name,
   .clear_all, .clear_by_status]

/-- The interface methods that `NotionTaskManager` (notion_manager.py)
overrides with a concrete definition.  The class body defines
`list_tasks`, `add_task`, `delete_task`, `restore_task`,
`update_task_status`, `update_task_name` and `clear_all_tasks`, and
nothing else. -/
def notionDefinedOps : List StoreOp :=
  [.list, .add, .delete, .restore, .update_status, .update_name,
   .clear_all]

/-- Python ABC semantics: a subclass of an abstract base class can be
instantiated iff it overrides every abstract method; otherwise
`object.__new__` raises `TypeError`. -/
def instantiable (definedOps : List StoreOp) : Bool :=
  interfaceAbstractOps.all (fun op => definedOps.contains op)

/-! ## Relational backend (`sql_manager.py`, class `SqlTaskManager`)

One table `tasks(id TEXT PRIMARY KEY, name TEXT NOT NULL, status TEXT
NOT NULL, archived INTEGER DEFAULT 0, created_at, updated_at)`.  The
store state is the list of rows in storage order; timestamps are
abstracted to `Nat`. -/

structure Row where
  id : String
  name : String
  status : String
  archived : Nat
  created_at : Nat
  updated_at : Nat
deriving Repr, DecidableEq

abbrev Db := List Row

/-- The uniform record a row is mapped to by `list_tasks`
(sql_manager.py, lines 93–99). -/
def Row.toTask (r : Row) : Task := ⟨r.id, r.name, r.status⟩

namespace Sql

/-- Python truthiness of the `status_filter` argument: `if status_filter:`
is false for `None` and for the empty string. -/
def filterTruthy : Option String → Bool
  | none => false
  | some s => !s.isEmpty

/-- The WHERE clause of `list_tasks`: `status = ? AND archived = 0` when a
truthy filter is given, `archived = 0` otherwise (sql_manager.py,
lines 81–87). -/
def rowSelected (status_filter : Option String) (r : Row) : Bool :=
  if filterTruthy status_filter then
    (r.status == status_filter.getD "") && (r.archived == 0)
  else
    r.archived == 0

/-- `SqlTaskManager.list_tasks(status_filter=None)`: SELECT id, name,
status of the selected rows; on any exception return `[]`. -/
def list_tasks (raises : Bool) (db : Db) (status_filter : Option String) :
    List Task :=
  if raises then []
  else (db.filter (rowSelected status_filter)).map Row.toTask

/-- `SqlTaskManager.add_task(name, status="Not started")`: generate a
fresh uuid (supplied here as `task_id`), INSERT the row with
`archived = 0`, and return `{'id', 'name', 'status'}`.  A PRIMARY KEY
violation (the supplied id already present) makes the INSERT raise,
which the `except` turns into `None` with the table unchanged. -/
def add_task (raises : Bool) (task_id : String) (now : Nat) (db : Db)
    (name : String) (status : String := "Not started") :
    Option Task × Db :=
  if raises then (none, db)
  else if db.any (fun r => r.id == task_id) then (none, db)
  else (some ⟨task_id, name, status⟩,
        db ++ [⟨task_id, name, status, 0, now, now⟩])

/-- The confirmation record `{'id': task_id, 'archived': b}` returned by
`delete_task` / `restore_task`. -/
structure ArchiveResult where
  id : String
  archived : Bool
deriving Repr, DecidableEq

/-- `SqlTaskManager.delete_task(task_id)`: UPDATE `archived = 1`,
`updated_at = now` WHERE `id = task_id` (no existence check), then
return `{'id': task_id, 'archived': True}` unconditionally. -/
def delete_task (raises : Bool) (now : Nat) (db : Db) (task_id : String) :
    Option ArchiveResult × Db :=
  if raises then (none, db)
  else (some ⟨task_id, true⟩,
        db.map fun r =>
          if r.id == task_id then { r with archived := 1, updated_at := now }
          else r)

/-- `SqlTaskManager.restore_task(task_id)`: UPDATE `archived = 0`,
`updated_at = now` WHERE `id = task_id`, then return
`{'id': task_id, 'archived': False}`. -/
def restore_task (raises : Bool) (now : Nat) (db : Db) (task_id : String) :
    Option ArchiveResult × Db :=
  if raises then (none, db)
  else (some ⟨task_id, false⟩,
        db.map fun r =>
          if r.id == task_id then { r with archived := 0, updated_at := now }
          else r)

/-- `SqlTaskManager.update_task_status(task_id, new_status)`: UPDATE the
`status` column and `updated_at` WHERE `id = task_id`; returns
`{'id': task_id, 'status': new_status}`. -/
def update_task_status (raises : Bool) (now : Nat) (db : Db)
    (task_id new_status : String) : Option (String × String) × Db :=
  if raises then (none, db)
  else (some (task_id, new_status),
        db.map fun r =>
          if r.id == task_id then
            { r with status := new_status, updated_at := now }
          else r)

/-- `SqlTaskManager.update_task_name(task_id, new_name)`: UPDATE the
`name` column and `updated_at` WHERE `id = task_id`; returns
`{'id': task_id, 'name': new_name}`. -/
def update_task_name (raises : Bool) (now : Nat) (db : Db)
    (task_id new_name : String) : Option (String × String) × Db :=
  if raises then (none, db)
  else (some (task_id, new_name),
        db.map fun r =>
          if r.id == task_id then
            { r with name := new_name, updated_at := now }
          else r)

/-- `SqlTaskManager.clear_all_tasks()`: `DELETE FROM tasks` (every row,
archived ones included); returns `True`, or `False` on exception. -/
def clear_all_tasks (raises : Bool) (db : Db) : Bool × Db :=
  if raises then (false, db)
  else (true, [])

/-- `SqlTaskManager.clear_tasks_by_status(status)`:
`DELETE FROM tasks WHERE status = ? AND archived = 0`; returns `True`,
or `False` on exception. -/
def clear_tasks_by_status (raises : Bool) (db : Db) (status : String) :
    Bool × Db :=
  if raises then (false, db)
  else (true, db.filter fun r => !((r.status == status) && (r.archived == 0)))

end Sql

/-! ## Remote API backend (`notion_manager.py`, class `NotionTaskManager`)

A task is a page of the configured Notion database with a title property
`Name` and a status property `Status`.  The remote state is the list of
pages; `archived` is the page's archive (trash) flag.  Per the Notion
API, `databases.query` returns only non-archived pages, and
`pages.update` on an id that names no page raises an API error (caught
by the operation's `except`). -/

structure Page where
  id : String
  name : String
  status : String
  archived : Bool
deriving Repr, DecidableEq

abbrev Remote := List Page

/-- The uniform record a page is mapped to by `NotionTaskManager.list_tasks`
(notion_manager.py, lines 80–87). -/
def Page.toTask (p : Page) : Task := ⟨p.id, p.name, p.status⟩

namespace Notion

/-- `databases.query(database_id, filter?)`: the non-archived pages,
restricted to `Status = status_filter` when a truthy filter was passed
(`if status_filter:` shares Python truthiness with the SQL variant). -/
def query (remote : Remote) (status_filter : Option String) : List Page :=
  if Sql.filterTruthy status_filter then
    remote.filter fun p =>
      (!p.archived) && (p.status == status_filter.getD "")
  else
    remote.filter fun p => !p.archived

/-- `NotionTaskManager.list_tasks(status_filter=None)`: query, then map
each page to `{'id', 'name', 'status'}`; on any exception return `[]`. -/
def list_tasks (raises : Bool) (remote : Remote)
    (status_filter : Option String) : List Task :=
  if raises then []
  else (query remote status_filter).map Page.toTask

/-- `NotionTaskManager.add_task(name, status="Not Started")`: create a
page under the database with the given title and status property (the
page id `page_id` is assigned by the remote service) and return the
creation response.  Note the source's default status is the string
`"Not Started"`, capital S. -/
def add_task (raises : Bool) (page_id : String) (remote : Remote)
    (name : String) (status : String := "Not Started") :
    Option Page × Remote :=
  if raises then (none, remote)
  else
    let p : Page := ⟨page_id, name, status, false⟩
    (some p, remote ++ [p])

/-- The state effect of `pages.update(page_id, archived=b)`: every page
with that id gets its archive flag set to `b` (the id names at most one
page in a real database, and no page at all leaves the state unchanged,
since mapping over it then changes nothing). -/
def setArchived (task_id : String) (b : Bool) (remote : Remote) : Remote :=
  remote.map fun p => if p.id == task_id then { p with archived := b } else p

/-- `NotionTaskManager.delete_task(task_id)`: `pages.update(task_id,
archived=True)`; the API raises on an unknown page id, which the
`except` turns into `None`; otherwise the updated page is returned. -/
def delete_task (raises : Bool) (remote : Remote) (task_id : String) :
    Option Page × Remote :=
  if raises then (none, remote)
  else
    ((remote.find? fun p => p.id == task_id).map
        fun p => { p with archived := true },
     setArchived task_id true remote)

/-- `NotionTaskManager.restore_task(task_id)`: `pages.update(task_id,
archived=False)`. -/
def restore_task (raises : Bool) (remote : Remote) (task_id : String) :
    Option Page × Remote :=
  if raises then (none, remote)
  else
    ((remote.find? fun p => p.id == task_id).map
        fun p => { p with archived := false },
     setArchived task_id false remote)

/-- `NotionTaskManager.update_task_status(task_id, new_status)`: update
the `Status` property of the page. -/
def update_task_status (raises : Bool) (remote : Remote)
    (task_id new_status : String) : Option Page × Remote :=
  if raises then (none, remote)
  else
    ((remote.find? fun p => p.id == task_id).map
        fun p => { p with status := new_status },
     remote.map fun p =>
       if p.id == task_id then { p with status := new_status } else p)

/-- `NotionTaskManager.update_task_name(task_id, new_name)`: update the
`Name` title property of the page. -/
def update_task_name (raises : Bool) (remote : Remote)
    (task_id new_name : String) : Option Page × Remote :=
  if raises then (none, remote)
  else
    ((remote.find? fun p => p.id == task_id).map
        fun p => { p with name := new_name },
     remote.map fun p =>
       if p.id == task_id then { p with name := new_name } else p)

/-- One iteration of the archive loop in `clear_all_tasks`
(notion_manager.py, lines 202–206): call `delete_task` on the task's id
and bump `archived_count` only when the result is non-`None` (the
loop's `if result:` guard).  The accumulator is (iteration index,
archived_count, remote state); `itemRaises i` says whether the remote
API raises inside the i-th `delete_task` call, making that call return
`None` and leave its page untouched while the loop continues. -/
def clearStep (itemRaises : Nat → Bool) (acc : Nat × Nat × Remote)
    (t : Task) : Nat × Nat × Remote :=
  match delete_task (itemRaises acc.1) acc.2.2 t.id with
  | (some _, remote2) => (acc.1 + 1, acc.2.1 + 1, remote2)
  | (none, remote2) => (acc.1 + 1, acc.2.1, remote2)

/-- `NotionTaskManager.clear_all_tasks()`: list all tasks; if there are
none, return `True` at once; otherwise archive each listed task in turn
and return `True` — also when some per-item `delete_task` failed and
only the count was skipped (`False` only on an exception caught by this
method's own `except`). -/
def clear_all_tasks (raises : Bool) (itemRaises : Nat → Bool)
    (remote : Remote) : Bool × Remote :=
  if raises then (false, remote)
  else
    let tasks := list_tasks false remote none
    if tasks.isEmpty then (true, remote)
    else
      let res := tasks.foldl (clearStep itemRaises) (0, 0, remote)
      (true, res.2.2)

end Notion

/-! ## Sync operation (`task_manager_helper.py`, `_execute_sync`)

Success path of the Notion→SQLite sync: fetch the Notion task list; when
it is non-empty, clear the SQLite table and re-insert each fetched task
(name and status only; the SQLite backend generates fresh ids, supplied
here by `idOf`, indexed by insertion order).  The reported value is the
success count shown to the user, `none` on the "No tasks found" path. -/

/-- One iteration of the copy loop in `_execute_sync`
(task_manager_helper.py, lines 451–454): accumulator is
(next fresh-id index, success_count, SQLite state). -/
def syncStep (idOf : Nat → String) (now : Nat)
    (acc : Nat × Nat × Db) (t : Task) : Nat × Nat × Db :=
  match Sql.add_task false (idOf acc.1) now acc.2.2 t.name t.status with
  | (some _, db2) => (acc.1 + 1, acc.2.1 + 1, db2)
  | (none, db2) => (acc.1 + 1, acc.2.1, db2)

/-- `TaskManagerHelper._execute_sync()` (success path): returns the
reported success count (`none` when the fetched list was empty and only
a warning is shown) together with the final SQLite state. -/
def execute_sync (remote : Remote) (idOf : Nat → String) (now : Nat)
    (db : Db) : Option Nat × Db :=
  let notion_tasks := Notion.list_tasks false remote none
  if notion_tasks.isEmpty then (none, db)
  else
    let db1 := (Sql.clear_all_tasks false db).2
    let res := notion_tasks.foldl (syncStep idOf now) (0, 0, db1)
    (some res.2.1, res.2.2)

/-! ## Presentation-layer add form (`task_manager_helper.py`,
`show_add_task_form`) -/

/-- The validation guard of `show_add_task_form`: the store's `add_task`
is called iff `task_name.strip()` is truthy, i.e. the whitespace-trimmed
name is non-empty (task_manager_helper.py, lines 120–126). -/
def addFormCallsStore (task_name : String) : Bool :=
  !task_name.trim.isEmpty

/-! ## Helper lemmas -/

theorem count_filter_ite {α : Type} [DecidableEq α] (l : List α)
    (p : α → Bool) (a : α) :
    (l.filter p).count a = if p a = true then l.count a else 0 := by
  by_cases h : p a = true
  · rw [if_pos h]
    exact List.count_filter h
  · rw [if_neg h, List.count_eq_zero]
    intro hmem
    exact h (List.mem_filter.1 hmem).2

theorem clearStep_state (acc : Nat × Nat × Remote) (t : Task) :
    (Notion.clearStep (fun _ => false) acc t).2.2 =
      Notion.setArchived t.id true acc.2.2 := by
  cases h : acc.2.2.find? fun p => p.id == t.id <;>
    simp [Notion.clearStep, Notion.delete_task, h]

theorem foldl_clearStep_state (ts : List Task) (acc : Nat × Nat × Remote) :
    (ts.foldl (Notion.clearStep (fun _ => false)) acc).2.2 =
      ts.foldl (fun rem t => Notion.setArchived t.id true rem) acc.2.2 := by
  induction ts generalizing acc with
  | nil => rfl
  | cons t ts ih =>
      rw [List.foldl_cons, List.foldl_cons, ih, clearStep_state]

theorem notion_clear_all_returns_true (itemRaises : Nat → Bool)
    (remote : Remote) :
    (Notion.clear_all_tasks false itemRaises remote).1 = true := by
  by_cases h : (Notion.list_tasks false remote none).isEmpty <;>
    simp [Notion.clear_all_tasks, h]

theorem foldl_setArchived_all (ts : List Task) (rem : Remote)
    (h : ∀ p ∈ rem, p.archived = false → p.id ∈ ts.map Task.id) :
    ∀ p ∈ ts.foldl (fun rem t => Notion.setArchived t.id true rem) rem,
      p.archived = true := by
  induction ts generalizing rem with
  | nil =>
      intro p hp
      by_cases harch : p.archived = true
      · exact harch
      · have hf : p.archived = false := by
          simpa using harch
        have := h p hp hf
        simp at this
  | cons t ts ih =>
      intro p hp
      refine ih (Notion.setArchived t.id true rem) ?_ p hp
      intro q hq hqf
      obtain ⟨q0, hq0, hq0eq⟩ := List.mem_map.1 (by simpa [Notion.setArchived] using hq)
      by_cases hc : q0.id = t.id
      · have hqeq : q = { q0 with archived := true } := by
          rw [← hq0eq]
          simp [hc]
        rw [hqeq] at hqf
        simp at hqf
      · have hqeq : q = q0 := by
          rw [← hq0eq]
          simp [hc]
        subst hqeq
        have hin := h q hq0 hqf
        simp only [List.map_cons, List.mem_cons] at hin
        rcases hin with hin | hin
        · exact absurd hin hc
        · exact hin

theorem notion_clear_all_empties (remote : Remote) :
    (Notion.clear_all_tasks false (fun _ => false) remote).1 = true ∧
    Notion.list_tasks false
      (Notion.clear_all_tasks false (fun _ => false) remote).2 none =
      [] := by
  by_cases hemp : (Notion.list_tasks false remote none).isEmpty
  · have hstate : Notion.clear_all_tasks false (fun _ => false) remote =
        (true, remote) := by
      simp [Notion.clear_all_tasks, hemp]
    rw [hstate]
    exact ⟨rfl, List.isEmpty_iff.1 hemp⟩
  · have hstate : Notion.clear_all_tasks false (fun _ => false) remote =
        (true, ((Notion.list_tasks false remote none).foldl
          (Notion.clearStep (fun _ => false)) (0, 0, remote)).2.2) := by
      simp [Notion.clear_all_tasks, hemp]
    rw [hstate]
    refine ⟨rfl, ?_⟩
    rw [foldl_clearStep_state]
    have hall : ∀ p ∈ (Notion.list_tasks false remote none).foldl
        (fun rem t => Notion.setArchived t.id true rem) remote,
        p.archived = true := by
      apply foldl_setArchived_all
      intro p hp hpf
      have hmem : p.toTask ∈ Notion.list_tasks false remote none := by
        refine List.mem_map.2 ⟨p, ?_, rfl⟩
        show p ∈ remote.filter fun q => !q.archived
        exact List.mem_filter.2 ⟨hp, by simp [hpf]⟩
      exact List.mem_map.2 ⟨p.toTask, hmem, rfl⟩
    have hfilter : ((Notion.list_tasks false remote none).foldl
        (fun rem t => Notion.setArchived t.id true rem) remote).filter
        (fun p => !p.archived) = [] := by
      rw [List.filter_eq_nil_iff]
      intro p hp
      simp [hall p hp]
    show (((Notion.list_tasks false remote none).foldl
        (fun rem t => Notion.setArchived t.id true rem) remote).filter
        (fun p => !p.archived)).map Page.toTask = []
    rw [hfilter]
    rfl

theorem foldl_syncStep (idOf : Nat → String) (now : Nat)
    (hinj : ∀ i j : Nat, idOf i = idOf j → i = j) :
    ∀ (ts : List Task) (k c : Nat) (db0 : Db),
    (∀ r ∈ db0, ∃ j, j < k ∧ r.id = idOf j) →
    ts.foldl (syncStep idOf now) (k, c, db0) =
      (k + ts.length, c + ts.length,
       db0 ++ ts.mapIdx fun i t =>
         (⟨idOf (k + i), t.name, t.status, 0, now, now⟩ : Row)) := by
  intro ts
  induction ts with
  | nil =>
      intro k c db0 hdb
      simp
  | cons t ts ih =>
      intro k c db0 hdb
      rw [List.foldl_cons]
      have hany : db0.any (fun r => r.id == idOf k) = false := by
        simp only [List.any_eq_false, beq_iff_eq]
        intro r hr heq
        obtain ⟨j, hj, hid⟩ := hdb r hr
        have := hinj j k (by rw [← hid, heq])
        omega
      have hstep : syncStep idOf now (k, c, db0) t =
          (k + 1, c + 1,
           db0 ++ [⟨idOf k, t.name, t.status, 0, now, now⟩]) := by
        simp [syncStep, Sql.add_task, hany]
      have hdb2 : ∀ r ∈ db0 ++ [⟨idOf k, t.name, t.status, 0, now, now⟩],
          ∃ j, j < k + 1 ∧ r.id = idOf j := by
        intro r hr
        rcases List.mem_append.1 hr with hr | hr
        · obtain ⟨j, hj, hid⟩ := hdb r hr
          exact ⟨j, by omega, hid⟩
        · have hreq : r = ⟨idOf k, t.name, t.status, 0, now, now⟩ := by
            simpa using hr
          exact ⟨k, by omega, by rw [hreq]⟩
      rw [hstep, ih (k + 1) (c + 1) _ hdb2]
      have hfun : (fun i (t' : Task) =>
          (⟨idOf (k + 1 + i), t'.name, t'.status, 0, now, now⟩ : Row)) =
          (fun i (t' : Task) =>
          (⟨idOf (k + (i + 1)), t'.name, t'.status, 0, now, now⟩ :
            Row)) := by
        funext i t'
        have h : k + 1 + i = k + (i + 1) := by omega
        rw [h]
      rw [hfun]
      simp only [Prod.mk.injEq, List.mapIdx_cons, Nat.add_zero,
        List.length_cons, List.append_assoc, List.singleton_append]
      exact ⟨by omega, by omega, trivial⟩

/-! ## Claims -/

/-- C1: the claim says the Remote API Backend implements the full
interface capability set, `clear_by_status` included.  In the code,
`NotionTaskManager` overrides every abstract method of
`TaskManagerInterface` except `clear_tasks_by_status`; under Python ABC
semantics the class therefore cannot even be instantiated, while
`SqlTaskManager` overrides all eight. -/
theorem notion_missing_clear_by_status :
    instantiable sqlDefinedOps = true ∧
    instantiable notionDefinedOps = false ∧
    StoreOp.clear_by_status ∉ notionDefinedOps ∧
    StoreOp.clear_by_status ∈ interfaceAbstractOps := by
  decide

/-- C2: the claim says every persisted or returned status is one of
`{Not started, In progress, Done}`, in particular for `add` called with
the default status.  `NotionTaskManager.add_task`'s default status is
the string `"Not Started"` (capital S), which is outside the
enumeration, and that page is both stored and returned; the relational
backend's default `"Not started"` is inside it. -/
theorem notion_default_status_outside_enum :
    Notion.add_task false "p1" [] "Buy milk" =
      (some ⟨"p1", "Buy milk", "Not Started", false⟩,
       [⟨"p1", "Buy milk", "Not Started", false⟩]) ∧
    "Not Started" ∉ statusOptions ∧
    (Sql.add_task false "t1" 0 [] "Buy milk").1 =
      some ⟨"t1", "Buy milk", "Not started"⟩ ∧
    "Not started" ∈ statusOptions := by
  decide

/-- C4 counterexample: the claim says `delete(id)` returns a null/absent
result when `id` is unknown to the backend.  On an empty table (where
`"ghost"` names no task) the relational `delete_task` still returns the
confirmation record `{'id': 'ghost', 'archived': True}`. -/
theorem sql_delete_unknown_id_still_confirms :
    (Sql.delete_task false 5 [] "ghost").1 = some ⟨"ghost", true⟩ ∧
    ∀ r : Row, r ∉ ([] : Db) := by
  exact ⟨rfl, fun r h => by cases h⟩

/-- C4 amended: `delete_task` returns the confirmation record
`{id, archived: true}` for every id, existing or not (the UPDATE is not
checked for a matched row); a null result arises only from a backend
error. -/
theorem sql_delete_confirmation (now : Nat) (db : Db) (task_id : String) :
    (Sql.delete_task false now db task_id).1 = some ⟨task_id, true⟩ ∧
    Sql.delete_task true now db task_id = (none, db) := by
  exact ⟨rfl, rfl⟩

/-- C7: `clear_tasks_by_status(S)` reports success and removes exactly
the rows with status `S` and `archived = 0`: such a row no longer occurs
at all, and every other row keeps its exact multiplicity (so tasks of
other statuses and archived tasks of status `S` are untouched). -/
theorem sql_clear_by_status_removes_exactly (db : Db) (s : String) :
    (Sql.clear_tasks_by_status false db s).1 = true ∧
    (∀ r : Row, r ∈ (Sql.clear_tasks_by_status false db s).2 ↔
      r ∈ db ∧ ¬(r.status = s ∧ r.archived = 0)) ∧
    (∀ r : Row, (Sql.clear_tasks_by_status false db s).2.count r =
      if r.status = s ∧ r.archived = 0 then 0 else db.count r) := by
  refine ⟨rfl, ?_, ?_⟩
  · intro r
    show r ∈ db.filter (fun r => !((r.status == s) && (r.archived == 0))) ↔ _
    rw [List.mem_filter]
    simp only [Bool.not_eq_true', Bool.and_eq_false_iff, beq_eq_false_iff_ne,
      ne_eq, not_and]
    tauto
  · intro r
    show (db.filter _).count r = _
    rw [count_filter_ite]
    by_cases h : r.status = s ∧ r.archived = 0
    · rw [if_pos h]
      simp [h.1, h.2]
    · rw [if_neg h]
      have : (!((r.status == s) && (r.archived == 0))) = true := by
        simp only [Bool.not_eq_true', Bool.and_eq_false_iff,
          beq_eq_false_iff_ne, ne_eq]
        by_cases h1 : r.status = s
        · exact Or.inr fun h2 => h ⟨h1, h2⟩
        · exact Or.inl h1
      rw [if_pos this]

/-- C9: with the backend raising an exception (`raises = true`), every
store operation of both backends flattens the failure: `list` returns
the empty sequence, `add`/`delete`/`restore`/`update_status`/
`update_name` return a null result, and the clear operations return
`false` — nothing propagates to the caller. -/
theorem store_errors_flattened (db : Db) (remote : Remote)
    (status_filter : Option String) (name status task_id : String)
    (now : Nat) (itemRaises : Nat → Bool) :
    Sql.list_tasks true db status_filter = [] ∧
    (Sql.add_task true task_id now db name status).1 = none ∧
    (Sql.delete_task true now db task_id).1 = none ∧
    (Sql.restore_task true now db task_id).1 = none ∧
    (Sql.update_task_status true now db task_id status).1 = none ∧
    (Sql.update_task_name true now db task_id name).1 = none ∧
    (Sql.clear_all_tasks true db).1 = false ∧
    (Sql.clear_tasks_by_status true db status).1 = false ∧
    Notion.list_tasks true remote status_filter = [] ∧
    (Notion.add_task true task_id remote name status).1 = none ∧
    (Notion.delete_task true remote task_id).1 = none ∧
    (Notion.restore_task true remote task_id).1 = none ∧
    (Notion.update_task_status true remote task_id status).1 = none ∧
    (Notion.update_task_name true remote task_id name).1 = none ∧
    (Notion.clear_all_tasks true itemRaises remote).1 = false := by
  exact ⟨rfl, rfl, rfl, rfl, rfl, rfl, rfl, rfl, rfl, rfl, rfl, rfl, rfl,
    rfl, rfl⟩

/-- C10: the relational `add_task` validates nothing: any name, the
empty string included, is inserted under a fresh id with `archived = 0`
and `{id, name, status}` is returned, and the new task then appears in
the unfiltered list; the empty-name rejection lives solely in the
presentation form, which calls the store iff the stripped name is
non-empty. -/
theorem sql_add_no_validation (db : Db) (name status task_id : String)
    (now : Nat) (hfresh : ∀ r ∈ db, r.id ≠ task_id) :
    Sql.add_task false task_id now db name status =
      (some ⟨task_id, name, status⟩,
       db ++ [⟨task_id, name, status, 0, now, now⟩]) ∧
    (⟨task_id, name, status⟩ : Task) ∈
      Sql.list_tasks false
        (Sql.add_task false task_id now db name status).2 none ∧
    ∀ n : String, addFormCallsStore n = false ↔ n.trim = "" := by
  have hany : db.any (fun r => r.id == task_id) = false := by
    simp only [List.any_eq_false, beq_iff_eq]
    exact hfresh
  have hadd : Sql.add_task false task_id now db name status =
      (some ⟨task_id, name, status⟩,
       db ++ [⟨task_id, name, status, 0, now, now⟩]) := by
    simp [Sql.add_task, hany]
  refine ⟨hadd, ?_, ?_⟩
  · rw [hadd]
    show (⟨task_id, name, status⟩ : Task) ∈
      ((db ++ ([⟨task_id, name, status, 0, now, now⟩] : Db)).filter
        (Sql.rowSelected none)).map Row.toTask
    refine List.mem_map.2 ⟨⟨task_id, name, status, 0, now, now⟩, ?_, rfl⟩
    refine List.mem_filter.2 ⟨by simp, ?_⟩
    simp [Sql.rowSelected, Sql.filterTruthy]
  · intro n
    simp [addFormCallsStore, String.isEmpty_iff]

/-- C5 counterexample: the claim says `add(name, status)` followed by an
unfiltered `list()` yields exactly one task with that name and status.
When the table already holds a non-archived task `("A", "Done")`, adding
another `("A", "Done")` leaves two matching tasks in the list. -/
theorem sql_add_then_list_duplicate :
    ((Sql.list_tasks false
        (Sql.add_task false "b" 1 [⟨"a", "A", "Done", 0, 0, 0⟩]
          "A" "Done").2 none).filter
      (fun t => (t.name == "A") && (t.status == "Done"))).length = 2 ∧
    "A" ≠ "" ∧ "Done" ∈ statusOptions := by
  decide

/-- C5 amended: for every non-empty name, valid status and fresh id,
provided no non-archived task with that name and status already exists,
`add` returns `{id, name, status}`, the unfiltered list then holds
exactly one task with that name and status (the new one), and a direct
re-select by the returned id finds exactly the inserted row with that
name and status, non-archived. -/
theorem sql_add_then_list_unique (db : Db) (name status task_id : String)
    (now : Nat) (hname : name ≠ "") (hstatus : status ∈ statusOptions)
    (hfresh : ∀ r ∈ db, r.id ≠ task_id)
    (hnodup : ∀ r ∈ db, r.archived = 0 →
      ¬(r.name = name ∧ r.status = status)) :
    (Sql.add_task false task_id now db name status).1 =
      some ⟨task_id, name, status⟩ ∧
    (Sql.list_tasks false
        (Sql.add_task false task_id now db name status).2 none).filter
      (fun t => (t.name == name) && (t.status == status)) =
      [⟨task_id, name, status⟩] ∧
    (Sql.add_task false task_id now db name status).2.filter
      (fun r => r.id == task_id) =
      [⟨task_id, name, status, 0, now, now⟩] := by
  have hany : db.any (fun r => r.id == task_id) = false := by
    simp only [List.any_eq_false, beq_iff_eq]
    exact hfresh
  have hadd : Sql.add_task false task_id now db name status =
      (some ⟨task_id, name, status⟩,
       db ++ ([⟨task_id, name, status, 0, now, now⟩] : Db)) := by
    simp [Sql.add_task, hany]
  rw [hadd]
  refine ⟨rfl, ?_, ?_⟩
  · show ((((db ++ ([⟨task_id, name, status, 0, now, now⟩] : Db)).filter
      (Sql.rowSelected none)).map Row.toTask).filter _) = _
    rw [List.filter_append, List.filter_map, List.filter_append]
    have hold : (db.filter (Sql.rowSelected none)).filter
        ((fun t => (t.name == name) && (t.status == status)) ∘ Row.toTask) =
        [] := by
      rw [List.filter_filter, List.filter_eq_nil_iff]
      intro r hr
      simp only [Function.comp, Row.toTask, Bool.and_eq_true, beq_iff_eq,
        Sql.rowSelected, Sql.filterTruthy, if_neg, Bool.false_eq_true,
        not_false_eq_true, beq_iff_eq, not_and]
      intro hmatch hsel
      exact hnodup r hr (by simpa using hsel) ⟨hmatch.1, hmatch.2⟩
    have hnew : (([⟨task_id, name, status, 0, now, now⟩] : Db).filter
        (Sql.rowSelected none)).filter
        ((fun t => (t.name == name) && (t.status == status)) ∘ Row.toTask) =
        [⟨task_id, name, status, 0, now, now⟩] := by
      simp [Sql.rowSelected, Sql.filterTruthy, Row.toTask]
    rw [hold, hnew]
    rfl
  · rw [List.filter_append]
    have hold : db.filter (fun r => r.id == task_id) = [] := by
      rw [List.filter_eq_nil_iff]
      intro r hr
      simp only [beq_iff_eq]
      exact hfresh r hr
    rw [hold]
    simp

/-- C5 witness: adding `("Buy milk", "Not started")` on an empty table
under the fresh id `"t1"`. -/
theorem sql_add_then_list_unique_witness :
    (Sql.add_task false "t1" 0 [] "Buy milk" "Not started").1 =
      some ⟨"t1", "Buy milk", "Not started"⟩ ∧
    (Sql.list_tasks false
        (Sql.add_task false "t1" 0 [] "Buy milk" "Not started").2
        none).filter
      (fun t => (t.name == "Buy milk") && (t.status == "Not started")) =
      [⟨"t1", "Buy milk", "Not started"⟩] ∧
    (Sql.add_task false "t1" 0 [] "Buy milk" "Not started").2.filter
      (fun r => r.id == "t1") =
      [⟨"t1", "Buy milk", "Not started", 0, 0, 0⟩] := by
  exact sql_add_then_list_unique [] "Buy milk" "Not started" "t1" 0
    (by decide) (by decide) (fun r h => by cases h) (fun r h => by cases h)

/-- C6: with ids unique (the PRIMARY KEY invariant), a row's task is in
the unfiltered list iff its archived flag is 0; after `delete_task` on
the row's id the list excludes that id entirely; and `restore_task`
after `delete_task` puts the task back in the list with its original
name and status. -/
theorem sql_archived_visibility (db : Db) (r : Row) (now1 now2 : Nat)
    (hmem : r ∈ db) (hids : (db.map Row.id).Nodup) :
    (r.toTask ∈ Sql.list_tasks false db none ↔ r.archived = 0) ∧
    (∀ t ∈ Sql.list_tasks false
        (Sql.delete_task false now1 db r.id).2 none, t.id ≠ r.id) ∧
    r.toTask ∈ Sql.list_tasks false
        (Sql.restore_task false now2
          (Sql.delete_task false now1 db r.id).2 r.id).2 none := by
  refine ⟨?_, ?_, ?_⟩
  · constructor
    · intro hlist
      obtain ⟨r', hr', htask⟩ := List.mem_map.1 hlist
      obtain ⟨hr'mem, hr'sel⟩ := List.mem_filter.1 hr'
      have hid : r'.id = r.id := congrArg Task.id htask
      have : r' = r := List.inj_on_of_nodup_map hids hr'mem hmem hid
      subst this
      simpa [Sql.rowSelected, Sql.filterTruthy] using hr'sel
    · intro harch
      refine List.mem_map.2 ⟨r, List.mem_filter.2 ⟨hmem, ?_⟩, rfl⟩
      simp [Sql.rowSelected, Sql.filterTruthy, harch]
  · intro t htlist
    obtain ⟨r', hr', htask⟩ := List.mem_map.1 htlist
    obtain ⟨hr'mem, hr'sel⟩ := List.mem_filter.1 hr'
    obtain ⟨r0, hr0, hr0eq⟩ := List.mem_map.1 hr'mem
    intro htid
    have hid : r'.id = r.id := by
      rw [← htask] at htid
      exact htid
    by_cases hcase : r0.id = r.id
    · have hr'eq : r' = { r0 with archived := 1, updated_at := now1 } := by
        rw [← hr0eq]
        simp [hcase]
      rw [hr'eq] at hr'sel
      simp [Sql.rowSelected, Sql.filterTruthy] at hr'sel
    · have hr'eq : r' = r0 := by
        rw [← hr0eq]
        simp [hcase]
      rw [hr'eq] at hid
      exact hcase hid
  · have hrow : ({ r with archived := 0, updated_at := now2 } : Row) ∈
        (Sql.restore_task false now2
          (Sql.delete_task false now1 db r.id).2 r.id).2 := by
      show _ ∈ List.map _ (List.map _ db)
      refine List.mem_map.2
        ⟨{ r with archived := 1, updated_at := now1 }, ?_, ?_⟩
      · exact List.mem_map.2 ⟨r, hmem, by simp⟩
      · simp
    refine List.mem_map.2 ⟨_, List.mem_filter.2 ⟨hrow, ?_⟩, ?_⟩
    · simp [Sql.rowSelected, Sql.filterTruthy]
    · simp [Row.toTask]

/-- C6 witness: a one-row table holding the task `("n", "Done")`. -/
theorem sql_archived_visibility_witness :
    ((⟨"a", "n", "Done", 0, 0, 0⟩ : Row).toTask ∈
      Sql.list_tasks false [⟨"a", "n", "Done", 0, 0, 0⟩] none ↔
      (⟨"a", "n", "Done", 0, 0, 0⟩ : Row).archived = 0) ∧
    (∀ t ∈ Sql.list_tasks false
        (Sql.delete_task false 1 [⟨"a", "n", "Done", 0, 0, 0⟩]
          (⟨"a", "n", "Done", 0, 0, 0⟩ : Row).id).2 none,
      t.id ≠ (⟨"a", "n", "Done", 0, 0, 0⟩ : Row).id) ∧
    (⟨"a", "n", "Done", 0, 0, 0⟩ : Row).toTask ∈
      Sql.list_tasks false
        (Sql.restore_task false 2
          (Sql.delete_task false 1 [⟨"a", "n", "Done", 0, 0, 0⟩]
            (⟨"a", "n", "Done", 0, 0, 0⟩ : Row).id).2
          (⟨"a", "n", "Done", 0, 0, 0⟩ : Row).id).2 none := by
  exact sql_archived_visibility [⟨"a", "n", "Done", 0, 0, 0⟩]
    ⟨"a", "n", "Done", 0, 0, 0⟩ 1 2 (by decide) (by decide)

/-- C8 counterexample: the claim says a successful `clear_all` leaves a
subsequent unfiltered `list()` empty for both backends.  On the remote
backend, with two tasks where the first per-item `delete_task` fails
(the API raises, the call returns `None`, the loop's `if result:` skips
the count and continues), `clear_all_tasks` still returns `True` while
the first page stays non-archived and visible to `list()`. -/
theorem notion_clear_all_partial_failure :
    Notion.clear_all_tasks false (fun i => i == 0)
        [⟨"n1", "A", "Done", false⟩, ⟨"n2", "B", "In progress", false⟩] =
      (true,
       [⟨"n1", "A", "Done", false⟩, ⟨"n2", "B", "In progress", true⟩]) ∧
    Notion.list_tasks false
        (Notion.clear_all_tasks false (fun i => i == 0)
          [⟨"n1", "A", "Done", false⟩,
           ⟨"n2", "B", "In progress", false⟩]).2 none =
      [⟨"n1", "A", "Done"⟩] := by
  decide

/-- C8 amended: the relational `clear_all_tasks` deletes every row —
archived ones included — and its subsequent unfiltered list is empty;
the remote `clear_all_tasks` returns `True` whether or not some
per-item archive call failed, and its subsequent unfiltered list is
empty when every per-item archive succeeded (a `True` return therefore
does not by itself guarantee an empty list). -/
theorem clear_all_leaves_list_empty (db : Db) (remote : Remote)
    (itemRaises : Nat → Bool) :
    Sql.clear_all_tasks false db = (true, []) ∧
    Sql.list_tasks false (Sql.clear_all_tasks false db).2 none = [] ∧
    (Notion.clear_all_tasks false itemRaises remote).1 = true ∧
    Notion.list_tasks false
      (Notion.clear_all_tasks false (fun _ => false) remote).2 none =
      [] := by
  exact ⟨rfl, rfl, notion_clear_all_returns_true itemRaises remote,
    (notion_clear_all_empties remote).2⟩

/-- C3 counterexample: the claim says the sync unconditionally clears the
relational backend.  With an empty remote and a one-row SQLite table the
sync leaves the table untouched (the clear is guarded by
`if notion_tasks:`) and reports no success count. -/
theorem sync_empty_remote_leaves_db :
    execute_sync [] (fun _ => "x") 0 [⟨"a", "A", "Done", 0, 0, 0⟩] =
      (none, [⟨"a", "A", "Done", 0, 0, 0⟩]) ∧
    ([⟨"a", "A", "Done", 0, 0, 0⟩] : Db) ≠ [] := by
  exact ⟨rfl, by decide⟩

/-- C3 amended: whenever the fetched remote task list is non-empty, the
sync clears the relational backend and inserts a fresh copy of every
fetched task, in order, under new generated ids, and the reported
success count equals the number of fetched tasks (every insert is
non-null, the ids being fresh); when the fetched list is empty the
relational backend is left untouched and no count is reported. -/
theorem sync_copies_remote_tasks (remote remote0 : Remote)
    (idOf : Nat → String) (now : Nat) (db db0 : Db)
    (hne : Notion.list_tasks false remote none ≠ [])
    (hinj : ∀ i j : Nat, idOf i = idOf j → i = j)
    (h0 : Notion.list_tasks false remote0 none = []) :
    execute_sync remote idOf now db =
      (some (Notion.list_tasks false remote none).length,
       (Notion.list_tasks false remote none).mapIdx fun i t =>
         (⟨idOf i, t.name, t.status, 0, now, now⟩ : Row)) ∧
    execute_sync remote0 idOf now db0 = (none, db0) := by
  constructor
  · have hemp : (Notion.list_tasks false remote none).isEmpty = false := by
      simpa [List.isEmpty_iff] using hne
    have hfold := foldl_syncStep idOf now hinj
      (Notion.list_tasks false remote none) 0 0 []
      (fun r hr => by cases hr)
    simp only [execute_sync, hemp, Bool.false_eq_true, if_false,
      Sql.clear_all_tasks, if_neg, hfold]
    simp [hfold]
  · simp [execute_sync, h0]

/-- C3 witness: a remote holding the two tasks `("A", "Done")` and
`("B", "In progress")`, and an empty remote beside a one-row table. -/
theorem sync_copies_remote_tasks_witness :
    execute_sync
        [⟨"n1", "A", "Done", false⟩, ⟨"n2", "B", "In progress", false⟩]
        (fun n => String.mk (List.replicate (n + 1) 'a')) 5 [] =
      (some 2, [⟨"a", "A", "Done", 0, 5, 5⟩,
                ⟨"aa", "B", "In progress", 0, 5, 5⟩]) ∧
    execute_sync [] (fun n => String.mk (List.replicate (n + 1) 'a')) 5
        [⟨"z", "Z", "Done", 0, 0, 0⟩] =
      (none, [⟨"z", "Z", "Done", 0, 0, 0⟩]) := by
  have h := sync_copies_remote_tasks
    [⟨"n1", "A", "Done", false⟩, ⟨"n2", "B", "In progress", false⟩] []
    (fun n => String.mk (List.replicate (n + 1) 'a')) 5 []
    [⟨"z", "Z", "Done", 0, 0, 0⟩] (by decide)
    (fun i j hij => by
      injection hij with hdata
      have hlen := congrArg List.length hdata
      simp at hlen
      omega)
    (by decide)
  refine ⟨?_, h.2⟩
  rw [h.1]
  decide

/-- C10 witness: adding the empty-string name on an empty table. -/
theorem sql_add_no_validation_witness :
    Sql.add_task false "t1" 0 [] "" "Not started" =
      (some ⟨"t1", "", "Not started"⟩,
       [] ++ [⟨"t1", "", "Not started", 0, 0, 0⟩]) ∧
    (⟨"t1", "", "Not started"⟩ : Task) ∈
      Sql.list_tasks false
        (Sql.add_task false "t1" 0 [] "" "Not started").2 none ∧
    ∀ n : String, addFormCallsStore n = false ↔ n.trim = "" := by
  exact sql_add_no_validation [] "" "Not started" "t1" 0
    (fun r h => by cases h)

end TaskApp
